import Mathlib

/-!
Verification of the artifact-acquisition and audio-mixing layer of the
Global-Viral-App repository, shallowly embedded from the Python source.

The embedding covers:
* the multi-provider image acquisition loop of
  src/animator_v2.py, function generate_image_hybrid (round loop,
  provider ordering, 1000-byte validation gate, inter-round backoff);
* the audio mixing cascade of src/animator_v2.py, function
  mix_audio_with_sfx (four FFmpeg strategies tried in fixed order);
* the orientation validator of src/aivideomaker_browser.py, method
  _validate_video_is_vertical, and the download finalisation step of
  image_to_video (size gate, orientation gate, deletion on rejection).

Effects on the file system and the network are modelled by oracles: an
environment assigns to every attempt the outcome the outside world would
produce for it (whether the call raised, what it returned, and the state
of the file at the output path right after the attempt).
-/

namespace GlobalViralApp

/-- State of the file at a given path: none when the file does not
exist, some n for a file of n bytes. -/
abbrev FileState := Option Nat

/-- The validation gate shared by generate_image_hybrid and try_mix in
src/animator_v2.py: os.path.exists(p) and os.path.getsize(p) > 1000. -/
def validFile : FileState → Bool
  | some n => decide (n > 1000)
  | none => false

/-- Outcome of one provider attempt, as decided by the outside world:
either the provider function raised an exception, or it returned a
boolean; in both cases the file at output_path afterwards is recorded. -/
inductive Outcome where
  | raised (file : FileState)
  | returned (ok : Bool) (file : FileState)
deriving DecidableEq

/-- File at output_path after the attempt. -/
def Outcome.file : Outcome → FileState
  | .raised f => f
  | .returned _ f => f

/-- The acceptance test of generate_image_hybrid for one attempt:
the provider function returned a truthy value (so it did not raise) and
the file at output_path passes the 1000-byte validation gate. Mirrors
the line: if success and os.path.exists(output_path) and
os.path.getsize(output_path) > 1000. -/
def Outcome.accepted : Outcome → Bool
  | .raised _ => false
  | .returned ok f => ok && validFile f

/-- Provider list built by generate_image_hybrid when _prodia_api_key is
set (truthy). Order is taken verbatim from the source. -/
def providersWithKey : List String :=
  ["Pollinations", "Prodia", "Stable Horde", "Dezgo", "Perchance"]

/-- Provider list built by generate_image_hybrid when _prodia_api_key is
empty. -/
def providersNoKey : List String :=
  ["Pollinations", "Stable Horde", "Dezgo", "Perchance"]

/-- The provider list of generate_image_hybrid as a function of the
module-level _prodia_api_key (a Python string, truthy iff nonempty).
Built once per call, before the round loop. -/
def buildProviders (prodia_api_key : String) : List String :=
  if prodia_api_key ≠ "" then providersWithKey else providersNoKey

/-- Result of running one round of the provider loop: whether some
attempt was accepted, the file at output_path afterwards, and the
provider indices invoked, in order. -/
structure RoundResult where
  found : Bool
  file : FileState
  invoked : List Nat
deriving DecidableEq

/-- Inner loop of generate_image_hybrid over the provider list for one
round: each provider is invoked in order; the first attempt passing the
acceptance test stops the scan. The environment env assigns to round r
and provider index i the outcome of that attempt. -/
def tryProviders (env : Nat → Nat → Outcome) (round : Nat) :
    List Nat → FileState → RoundResult
  | [], file => ⟨false, file, []⟩
  | i :: rest, _ =>
    let o := env round i
    if o.accepted then ⟨true, o.file, [i]⟩
    else
      let r := tryProviders env round rest o.file
      ⟨r.found, r.file, i :: r.invoked⟩

/-- Result of a whole generate_image_hybrid session: the returned
boolean, the file at output_path on return, every (round, provider
index) invoked in order, and the inter-round backoff sleeps performed,
in seconds. The fixed delay_between sleep performed after a success is
not an inter-round backoff and is not recorded here. -/
structure HybridRun where
  success : Bool
  file : FileState
  calls : List (Nat × Nat)
  sleeps : List Nat
deriving DecidableEq

/-- Round loop of generate_image_hybrid: remaining rounds still to run,
attempt is the absolute round index (the Python loop variable). After a
fully failed round, when attempt < max_retries - 1 the function sleeps
min((attempt + 1) * 10, 60) seconds before the next round. -/
def hybridRounds (env : Nat → Nat → Outcome) (np maxR : Nat) :
    Nat → Nat → FileState → HybridRun
  | 0, _, file => ⟨false, file, [], []⟩
  | n + 1, attempt, file =>
    let rr := tryProviders env attempt (List.range np) file
    if rr.found then
      ⟨true, rr.file, rr.invoked.map (fun i => (attempt, i)), []⟩
    else
      let pause := if attempt + 1 < maxR then [min ((attempt + 1) * 10) 60] else []
      let rest := hybridRounds env np maxR n (attempt + 1) rr.file
      ⟨rest.success, rest.file,
       rr.invoked.map (fun i => (attempt, i)) ++ rest.calls,
       pause ++ rest.sleeps⟩

/-- generate_image_hybrid of src/animator_v2.py: builds the provider
list from the configured key, then runs up to max_retries rounds over
it, returning True as soon as an attempt passes the validation gate and
False after the last round otherwise. file0 is the file at output_path
on entry. -/
def generate_image_hybrid (env : Nat → Nat → Outcome) (prodia_api_key : String)
    (max_retries : Nat) (file0 : FileState) : HybridRun :=
  hybridRounds env (buildProviders prodia_api_key).length max_retries max_retries 0 file0

/-- Calls performed by n consecutive fully-failed rounds starting at
round a, with np providers per round. -/
def gridCalls (np : Nat) : Nat → Nat → List (Nat × Nat)
  | _, 0 => []
  | a, n + 1 => (List.range np).map (fun i => (a, i)) ++ gridCalls np (a + 1) n

/-- Backoff sleeps performed by n consecutive fully-failed rounds
starting at round a, under round bound maxR. -/
def backoffList (maxR : Nat) : Nat → Nat → List Nat
  | _, 0 => []
  | a, n + 1 =>
    (if a + 1 < maxR then [min ((a + 1) * 10) 60] else []) ++ backoffList maxR (a + 1) n

/-- Total duration of a list of calls under a duration assignment
(seconds the attempt at round r, provider i takes). -/
def callTime (d : Nat → Nat → Nat) (calls : List (Nat × Nat)) : Nat :=
  (calls.map (fun c => d c.1 c.2)).sum

/-- Wall-clock time of a session: attempt durations plus backoff
sleeps. -/
def elapsedTime (d : Nat → Nat → Nat) (run : HybridRun) : Nat :=
  callTime d run.calls + run.sleeps.sum

/-- An accepted outcome leaves a file passing the validation gate. -/
theorem Outcome.accepted_valid {o : Outcome} (h : o.accepted = true) :
    validFile o.file = true := by
  cases o with
  | raised f => simp [Outcome.accepted] at h
  | returned ok f =>
    simp only [Outcome.accepted, Bool.and_eq_true] at h
    exact h.2

theorem tryProviders_found_valid (env : Nat → Nat → Outcome) (round : Nat) :
    ∀ (is : List Nat) (file : FileState),
      (tryProviders env round is file).found = true →
      validFile (tryProviders env round is file).file = true := by
  intro is
  induction is with
  | nil => intro file h; simp [tryProviders] at h
  | cons i rest ih =>
    intro file h
    by_cases hacc : (env round i).accepted = true
    · simp [tryProviders, hacc]
      exact Outcome.accepted_valid hacc
    · simp only [Bool.not_eq_true] at hacc
      simp only [tryProviders, hacc, Bool.false_eq_true, if_false] at h ⊢
      exact ih _ h

theorem hybridRounds_success_valid (env : Nat → Nat → Outcome) (np maxR : Nat) :
    ∀ (n attempt : Nat) (file : FileState),
      (hybridRounds env np maxR n attempt file).success = true →
      validFile (hybridRounds env np maxR n attempt file).file = true := by
  intro n
  induction n with
  | zero => intro attempt file h; simp [hybridRounds] at h
  | succ n ih =>
    intro attempt file h
    by_cases hf : (tryProviders env attempt (List.range np) file).found = true
    · simp only [hybridRounds, hf, if_true]
      exact tryProviders_found_valid env attempt _ file hf
    · simp only [Bool.not_eq_true] at hf
      simp only [hybridRounds, hf, Bool.false_eq_true, if_false] at h ⊢
      exact ih _ _ h

/-- C1: generate_image_hybrid returns True only when the artifact at
output_path passes the validation gate (file exists and its size
exceeds 1000 bytes); a missing or undersized result is never
accepted, whichever provider produced it and in whichever round. -/
theorem c1_success_only_if_valid (env : Nat → Nat → Outcome)
    (key : String) (maxR : Nat) (file0 : FileState)
    (h : (generate_image_hybrid env key maxR file0).success = true) :
    validFile (generate_image_hybrid env key maxR file0).file = true :=
  hybridRounds_success_valid env (buildProviders key).length maxR maxR 0 file0 h

/-- Environment in which every attempt returns True with a 5000-byte
file at output_path. -/
def envOkBig : Nat → Nat → Outcome := fun _ _ => Outcome.returned true (some 5000)

/-- Witness for C1 at a concrete environment. -/
theorem c1_success_only_if_valid_witness :
    validFile (generate_image_hybrid envOkBig "" 3 none).file = true :=
  c1_success_only_if_valid envOkBig "" 3 none (by decide)

theorem tryProviders_all_fail (env : Nat → Nat → Outcome) (round : Nat) :
    ∀ (is : List Nat) (file : FileState),
      (∀ i ∈ is, (env round i).accepted = false) →
      (tryProviders env round is file).found = false ∧
      (tryProviders env round is file).invoked = is := by
  intro is
  induction is with
  | nil => intro file _; exact ⟨rfl, rfl⟩
  | cons i rest ih =>
    intro file h
    have hi : (env round i).accepted = false := h i (List.mem_cons_self i rest)
    have hrest := ih (env round i).file (fun j hj => h j (List.mem_cons_of_mem i hj))
    simp only [tryProviders, hi, Bool.false_eq_true, if_false]
    exact ⟨hrest.1, by rw [hrest.2]⟩

theorem hybridRounds_all_fail (env : Nat → Nat → Outcome) (np maxR : Nat)
    (h : ∀ r i, (env r i).accepted = false) :
    ∀ (n a : Nat) (file : FileState),
      (hybridRounds env np maxR n a file).success = false ∧
      (hybridRounds env np maxR n a file).calls = gridCalls np a n ∧
      (hybridRounds env np maxR n a file).sleeps = backoffList maxR a n := by
  intro n
  induction n with
  | zero => intro a file; exact ⟨rfl, rfl, rfl⟩
  | succ n ih =>
    intro a file
    have htp := tryProviders_all_fail env a (List.range np) file (fun i _ => h a i)
    have hrest := ih (a + 1) (tryProviders env a (List.range np) file).file
    simp only [hybridRounds, htp.1, Bool.false_eq_true, if_false]
    refine ⟨hrest.1, ?_, ?_⟩
    · rw [htp.2, hrest.2.1]; rfl
    · rw [hrest.2.2]; rfl

theorem range_succ_map_shift {α : Type} (f : Nat → α) (n : Nat) :
    (List.range (n + 1)).map f = f 0 :: (List.range n).map (fun k => f (k + 1)) := by
  rw [List.range_succ_eq_map]
  simp only [List.map_cons, List.map_map]
  rfl

theorem backoffList_eq (maxR : Nat) :
    ∀ (n a : Nat), a + n = maxR →
      backoffList maxR a n =
        (List.range (n - 1)).map (fun k => min ((a + k + 1) * 10) 60) := by
  intro n
  induction n with
  | zero => intro a _; rfl
  | succ n ih =>
    intro a ha
    cases n with
    | zero =>
      have hcond : ¬ (a + 1 < maxR) := by omega
      simp [backoffList, hcond]
    | succ m =>
      have hcond : a + 1 < maxR := by omega
      have ih2 := ih (a + 1) (by omega)
      rw [backoffList, if_pos hcond, ih2]
      simp only [Nat.add_sub_cancel]
      rw [range_succ_map_shift (fun k => min ((a + k + 1) * 10) 60) m]
      simp only [List.singleton_append, Nat.add_zero]
      congr 1
      apply List.map_congr_left
      intro k _
      have h2 : a + 1 + k + 1 = a + (k + 1) + 1 := by omega
      rw [h2]

/-- C3: with every attempt failing in every round, generate_image_hybrid
returns False after exactly max_retries full rounds (every round invokes
every provider), having slept exactly max_retries - 1 inter-round
backoffs; the backoff after round r (1-indexed) is min(r * 10, 60)
seconds, so the list entry at index k is min((k + 1) * 10, 60), and the
sequence is monotonically non-decreasing. Sleeps occur only between
rounds: the model appends at most one sleep per completed round, never
between providers inside a round. -/
theorem c3_round_exhaustion (env : Nat → Nat → Outcome) (key : String)
    (maxR : Nat) (file0 : FileState)
    (hfail : ∀ r i, (env r i).accepted = false) :
    (generate_image_hybrid env key maxR file0).success = false ∧
    (generate_image_hybrid env key maxR file0).calls =
      gridCalls (buildProviders key).length 0 maxR ∧
    (generate_image_hybrid env key maxR file0).sleeps =
      (List.range (maxR - 1)).map (fun r => min ((r + 1) * 10) 60) ∧
    (generate_image_hybrid env key maxR file0).sleeps.length = maxR - 1 ∧
    List.Pairwise (fun x y => x ≤ y) (generate_image_hybrid env key maxR file0).sleeps := by
  have h := hybridRounds_all_fail env (buildProviders key).length maxR hfail maxR 0 file0
  have hb := backoffList_eq maxR maxR 0 (by omega)
  simp only [Nat.zero_add] at hb
  have hs : (generate_image_hybrid env key maxR file0).sleeps =
      (List.range (maxR - 1)).map (fun r => min ((r + 1) * 10) 60) := h.2.2.trans hb
  refine ⟨h.1, h.2.1, hs, ?_, ?_⟩
  · rw [hs]; simp
  · rw [hs]
    exact (List.pairwise_lt_range (maxR - 1)).map
      (fun r => min ((r + 1) * 10) 60)
      (fun x y hxy => min_le_min (by omega) (Nat.le_refl 60))

/-- Environment in which every attempt returns False and leaves no
file. -/
def envAllFail : Nat → Nat → Outcome := fun _ _ => Outcome.returned false none

/-- Witness for C3 at a concrete all-failing environment with three
rounds. -/
theorem c3_round_exhaustion_witness :
    (generate_image_hybrid envAllFail "" 3 none).success = false ∧
    (generate_image_hybrid envAllFail "" 3 none).calls =
      gridCalls (buildProviders "").length 0 3 ∧
    (generate_image_hybrid envAllFail "" 3 none).sleeps =
      (List.range 2).map (fun r => min ((r + 1) * 10) 60) ∧
    (generate_image_hybrid envAllFail "" 3 none).sleeps.length = 2 ∧
    List.Pairwise (fun x y => x ≤ y) (generate_image_hybrid envAllFail "" 3 none).sleeps :=
  c3_round_exhaustion envAllFail "" 3 none (fun _ _ => rfl)

theorem range_split (np k : Nat) (hk : k < np) :
    List.range np =
      List.range k ++ k :: (List.range (np - k - 1)).map (fun j => k + 1 + j) := by
  have h1 : np = (k + 1) + (np - k - 1) := by omega
  conv_lhs => rw [h1]
  rw [List.range_add, List.range_succ]
  simp [List.append_assoc]

theorem tryProviders_first (env : Nat → Nat → Outcome) (round : Nat) :
    ∀ (l1 : List Nat) (k : Nat) (l2 : List Nat) (file : FileState),
      (∀ i ∈ l1, (env round i).accepted = false) →
      (env round k).accepted = true →
      tryProviders env round (l1 ++ k :: l2) file =
        ⟨true, (env round k).file, l1 ++ [k]⟩ := by
  intro l1
  induction l1 with
  | nil =>
    intro k l2 file _ hk
    simp [tryProviders, hk]
  | cons i rest ih =>
    intro k l2 file h hk
    have hi : (env round i).accepted = false := h i (List.mem_cons_self i rest)
    have hrec := ih k l2 (env round i).file (fun j hj => h j (List.mem_cons_of_mem i hj)) hk
    simp only [List.cons_append, tryProviders, List.append_eq, hi, Bool.false_eq_true,
      if_false, hrec]

theorem hybridRounds_first (env : Nat → Nat → Outcome) (np maxR r k : Nat)
    (hk : k < np)
    (hbefore : ∀ a, a < r → ∀ i, i < np → (env a i).accepted = false)
    (hacc : (env r k).accepted = true)
    (hkb : ∀ i, i < k → (env r i).accepted = false) :
    ∀ (n a : Nat) (file : FileState), a + n = maxR → a ≤ r → r < maxR →
      hybridRounds env np maxR n a file =
        ⟨true, (env r k).file,
         gridCalls np a (r - a) ++ (List.range (k + 1)).map (fun i => (r, i)),
         backoffList maxR a (r - a)⟩ := by
  intro n
  induction n with
  | zero => intro a file hn har hr; omega
  | succ n ih =>
    intro a file hn har hr
    by_cases har2 : a = r
    · subst har2
      have hsplit := range_split np k hk
      have htp := tryProviders_first env a (List.range k) k
        ((List.range (np - k - 1)).map (fun j => k + 1 + j)) file
        (fun i hi => hkb i (List.mem_range.mp hi)) hacc
      simp only [hybridRounds, hsplit, htp, if_true, Nat.sub_self, gridCalls,
        backoffList, List.nil_append]
      rw [← List.range_succ]
    · have har3 : a < r := by omega
      have htp := tryProviders_all_fail env a (List.range np) file
        (fun i hi => hbefore a har3 i (List.mem_range.mp hi))
      have hcond : a + 1 < maxR := by omega
      simp only [hybridRounds, htp.1, Bool.false_eq_true, if_false]
      rw [ih (a + 1) (tryProviders env a (List.range np) file).file (by omega) (by omega) hr,
        htp.2]
      have hra : r - a = (r - (a + 1)) + 1 := by omega
      rw [hra]
      simp only [gridCalls, backoffList, hcond, if_true, List.append_assoc,
        List.singleton_append, HybridRun.mk.injEq]

theorem mem_gridCalls (np : Nat) :
    ∀ (n a x y : Nat), ((x, y) ∈ gridCalls np a n) ↔ (a ≤ x ∧ x < a + n ∧ y < np) := by
  intro n
  induction n with
  | zero => intro a x y; simp only [gridCalls, List.not_mem_nil, false_iff]; omega
  | succ n ih =>
    intro a x y
    simp only [gridCalls, List.mem_append, List.mem_map, List.mem_range, ih,
      Prod.mk.injEq]
    constructor
    · rintro (⟨i, hi, h1, h2⟩ | h) <;> omega
    · intro h
      by_cases hx : x = a
      · exact Or.inl ⟨y, by omega, hx.symm, rfl⟩
      · exact Or.inr (by omega)

/-- C2: if in some round the providers ranked before k all fail and the
attempt of provider k is accepted (and every earlier round failed
completely), then generate_image_hybrid returns True, provider k is
invoked in that round, no provider ranked after k is invoked in that
round, and no later round is started: the first valid result wins. -/
theorem c2_first_success_wins (env : Nat → Nat → Outcome) (key : String)
    (maxR r k : Nat) (file0 : FileState)
    (hk : k < (buildProviders key).length) (hr : r < maxR)
    (hbefore : ∀ a, a < r → ∀ i, i < (buildProviders key).length → (env a i).accepted = false)
    (hacc : (env r k).accepted = true)
    (hkb : ∀ i, i < k → (env r i).accepted = false) :
    (generate_image_hybrid env key maxR file0).success = true ∧
    (r, k) ∈ (generate_image_hybrid env key maxR file0).calls ∧
    (∀ j, k < j → (r, j) ∉ (generate_image_hybrid env key maxR file0).calls) ∧
    (∀ r2 j, r < r2 → (r2, j) ∉ (generate_image_hybrid env key maxR file0).calls) := by
  have hrun : generate_image_hybrid env key maxR file0 =
      ⟨true, (env r k).file,
       gridCalls (buildProviders key).length 0 (r - 0) ++
         (List.range (k + 1)).map (fun i => (r, i)),
       backoffList maxR 0 (r - 0)⟩ :=
    hybridRounds_first env (buildProviders key).length maxR r k hk hbefore hacc hkb
      maxR 0 file0 (by omega) (by omega) hr
  rw [hrun]
  refine ⟨rfl, ?_, ?_, ?_⟩
  · exact List.mem_append_right _
      (List.mem_map.mpr ⟨k, List.mem_range.mpr (by omega), rfl⟩)
  · intro j hj hmem
    rcases List.mem_append.mp hmem with hmem | hmem
    · have := (mem_gridCalls _ _ _ _ _).mp hmem; omega
    · simp only [List.mem_map, List.mem_range, Prod.mk.injEq] at hmem
      obtain ⟨i, hi, _, hik⟩ := hmem
      omega
  · intro r2 j hr2 hmem
    rcases List.mem_append.mp hmem with hmem | hmem
    · have := (mem_gridCalls _ _ _ _ _).mp hmem; omega
    · simp only [List.mem_map, List.mem_range, Prod.mk.injEq] at hmem
      obtain ⟨i, _, hri, _⟩ := hmem
      omega

/-- Environment in which, in round 0, provider 0 fails and provider 1
returns True with a 2000-byte file; all other attempts fail. -/
def envSecondProvider : Nat → Nat → Outcome := fun r i =>
  if r == 0 && i == 1 then Outcome.returned true (some 2000)
  else Outcome.returned false none

/-- Witness for C2: with the second-ranked provider the first to
succeed in round 0, the session succeeds there and invokes nothing
after it. -/
theorem c2_first_success_wins_witness :
    (generate_image_hybrid envSecondProvider "" 3 none).success = true ∧
    (0, 1) ∈ (generate_image_hybrid envSecondProvider "" 3 none).calls ∧
    (∀ j, 1 < j → (0, j) ∉ (generate_image_hybrid envSecondProvider "" 3 none).calls) ∧
    (∀ r2 j, 0 < r2 → (r2, j) ∉ (generate_image_hybrid envSecondProvider "" 3 none).calls) :=
  c2_first_success_wins envSecondProvider "" 3 0 1 none (by decide) (by omega)
    (fun a ha => absurd ha (Nat.not_lt_zero a))
    (by decide)
    (by
      intro i hi
      have hi0 : i = 0 := by omega
      subst hi0
      decide)

theorem callTime_const (c : Nat) :
    ∀ l : List (Nat × Nat), callTime (fun _ _ => c) l = l.length * c := by
  intro l
  induction l with
  | nil => simp [callTime]
  | cons x xs ih =>
    simp only [callTime, List.map_cons, List.sum_cons, List.length_cons] at ih ⊢
    rw [ih]; ring

theorem gridCalls_length (np : Nat) :
    ∀ (n a : Nat), (gridCalls np a n).length = n * np := by
  intro n
  induction n with
  | zero => intro a; simp [gridCalls]
  | succ n ih =>
    intro a
    simp only [gridCalls, List.length_append, List.length_map, List.length_range, ih]
    ring

theorem buildProviders_length (key : String) : 4 ≤ (buildProviders key).length := by
  by_cases h : key = ""
  · subst h; decide
  · unfold buildProviders
    rw [if_pos h]
    decide

/-- C5 counterexample: generate_image_hybrid has no wall-clock ceiling.
With every attempt failing and each attempt taking 1000000 seconds,
round 0 alone takes 5000000 seconds — far beyond a one-day ceiling —
yet the session still invokes the last provider of the last round
(call (9, 4) with max_retries = 10), so it does run for the full
duration of max_retries rounds of worst-case provider times. -/
theorem c5_counterexample :
    (9, 4) ∈ (generate_image_hybrid envAllFail "key" 10 none).calls ∧
    86400 <
      callTime (fun _ _ => 1000000)
        (((generate_image_hybrid envAllFail "key" 10 none).calls).filter
          (fun c => c.1 == 0)) ∧
    (generate_image_hybrid envAllFail "key" 10 none).success = false := by
  decide

/-- C5 amended: generate_image_hybrid enforces no overall wall-clock
ceiling. When every attempt fails, the session always runs every
provider of every one of its max_retries rounds, whatever the attempt
durations, so for every candidate ceiling T some duration assignment
makes the session exceed T while it still runs to round exhaustion. -/
theorem c5_no_ceiling (env : Nat → Nat → Outcome) (key : String)
    (maxR T : Nat) (file0 : FileState)
    (hfail : ∀ r i, (env r i).accepted = false) (hpos : 1 ≤ maxR) :
    ∃ d : Nat → Nat → Nat,
      (generate_image_hybrid env key maxR file0).calls =
        gridCalls (buildProviders key).length 0 maxR ∧
      T < elapsedTime d (generate_image_hybrid env key maxR file0) := by
  have hcalls : (generate_image_hybrid env key maxR file0).calls =
      gridCalls (buildProviders key).length 0 maxR :=
    (hybridRounds_all_fail env (buildProviders key).length maxR hfail maxR 0 file0).2.1
  refine ⟨fun _ _ => T + 1, hcalls, ?_⟩
  have hlen : (generate_image_hybrid env key maxR file0).calls.length =
      maxR * (buildProviders key).length := by
    rw [hcalls, gridCalls_length]
  have hct : callTime (fun _ _ => T + 1) (generate_image_hybrid env key maxR file0).calls =
      (maxR * (buildProviders key).length) * (T + 1) := by
    rw [callTime_const, hlen]
  have hnp : 4 ≤ (buildProviders key).length := buildProviders_length key
  have hpos2 : 0 < maxR * (buildProviders key).length := Nat.mul_pos (by omega) (by omega)
  have h1 : T + 1 ≤ (maxR * (buildProviders key).length) * (T + 1) :=
    Nat.le_mul_of_pos_left _ hpos2
  show T < callTime (fun _ _ => T + 1) (generate_image_hybrid env key maxR file0).calls +
      (generate_image_hybrid env key maxR file0).sleeps.sum
  omega

/-- Witness for the amended C5 at a concrete all-failing environment
with a one-day candidate ceiling. -/
theorem c5_no_ceiling_witness :
    ∃ d : Nat → Nat → Nat,
      (generate_image_hybrid envAllFail "" 2 none).calls =
        gridCalls (buildProviders "").length 0 2 ∧
      86400 < elapsedTime d (generate_image_hybrid envAllFail "" 2 none) :=
  c5_no_ceiling envAllFail "" 2 86400 none (fun _ _ => rfl) (by omega)

/-- C6 counterexample: when a Prodia key is configured, the first
provider tried is the free, anonymous Pollinations, not the
key-requiring Prodia, so Prodia is not promoted above the
free/anonymous providers. -/
theorem c6_counterexample :
    buildProviders "key" =
      ["Pollinations", "Prodia", "Stable Horde", "Dezgo", "Perchance"] ∧
    (buildProviders "key").head? = some "Pollinations" ∧
    "Pollinations" ∈ providersNoKey ∧
    (buildProviders "key").head? ≠ some "Prodia" := by
  decide

/-- C6 amended: the provider list is fixed once per session from the
configured key. Prodia is included exactly when the key is nonempty,
and is then ranked second: above the free providers Stable Horde,
Dezgo and Perchance, but below the free provider Pollinations, which
is always tried first. With no key, Prodia is excluded entirely. -/
theorem c6_provider_order (key : String) :
    ("Prodia" ∈ buildProviders key ↔ key ≠ "") ∧
    (key ≠ "" → buildProviders key =
      ["Pollinations", "Prodia", "Stable Horde", "Dezgo", "Perchance"]) ∧
    (key = "" → buildProviders key =
      ["Pollinations", "Stable Horde", "Dezgo", "Perchance"]) := by
  by_cases h : key = ""
  · subst h
    exact ⟨by decide, fun hk => absurd rfl hk, fun _ => by decide⟩
  · refine ⟨?_, fun _ => ?_, fun hk => absurd hk h⟩
    · unfold buildProviders
      rw [if_pos h]
      exact ⟨fun _ => h, fun _ => by decide⟩
    · unfold buildProviders
      rw [if_pos h]
      decide

/-- Witness for the amended C6 at a concrete nonempty key. -/
theorem c6_provider_order_witness :
    buildProviders "abc" =
      ["Pollinations", "Prodia", "Stable Horde", "Dezgo", "Perchance"] :=
  (c6_provider_order "abc").2.1 (by decide)

/-- Result of the ffprobe invocation made by _validate_video_is_vertical
in src/aivideomaker_browser.py. exits models a completed run with its
return code and the parsed stream list, each entry a (width, height)
pair with missing JSON keys already defaulted to 0 (dict get default);
timeout models subprocess.TimeoutExpired from the 30 s limit; raised
models any other exception, including a JSON parse failure. -/
inductive ProbeResult where
  | exits (returncode : Nat) (streams : List (Nat × Nat))
  | timeout
  | raised
deriving DecidableEq

/-- _validate_video_is_vertical of src/aivideomaker_browser.py: when
ffprobe exits 0 and reports a first stream, the video is accepted iff
height > width; in every other case (nonzero exit, no stream, timeout,
exception) the function falls back to returning True. -/
def validate_video_is_vertical : ProbeResult → Bool
  | .exits rc streams =>
    if rc = 0 then
      match streams with
      | (w, h) :: _ => decide (h > w)
      | [] => true
    else true
  | .timeout => true
  | .raised => true

/-- Result of the finalisation step of image_to_video: returned is true
iff the function returns output_path (rather than None); file is the
file left at output_path. -/
structure VideoResult where
  returned : Bool
  file : FileState
deriving DecidableEq

/-- Finalisation of image_to_video (src/aivideomaker_browser.py, lines
817-835): when the downloaded file exists and exceeds 10000 bytes, the
orientation gate runs; a video rejected by it is deleted (os.remove)
and None is returned; one accepted is returned as the result. When the
download left no file or an undersized one, None is returned and the
file is left untouched. -/
def image_to_video_finalize (file : FileState) (probe : ProbeResult) : VideoResult :=
  match file with
  | some sz =>
    if sz > 10000 then
      if validate_video_is_vertical probe then ⟨true, some sz⟩
      else ⟨false, none⟩
    else ⟨false, some sz⟩
  | none => ⟨false, none⟩

/-- C7: for a downloaded video large enough to reach the orientation
gate, a landscape probe result (height not greater than width) fails
the check and the artifact is not returned as the result, while a
portrait probe result (height strictly greater than width) passes the
check and the artifact is returned. -/
theorem c7_orientation_gate (w h sz : Nat) (hsz : 10000 < sz) :
    (h ≤ w →
      validate_video_is_vertical (ProbeResult.exits 0 [(w, h)]) = false ∧
      (image_to_video_finalize (some sz) (ProbeResult.exits 0 [(w, h)])).returned = false) ∧
    (w < h →
      validate_video_is_vertical (ProbeResult.exits 0 [(w, h)]) = true ∧
      (image_to_video_finalize (some sz) (ProbeResult.exits 0 [(w, h)])).returned = true) := by
  constructor
  · intro hwh
    have hnot : ¬ (w < h) := by omega
    constructor
    · simp [validate_video_is_vertical, hnot]
    · simp [image_to_video_finalize, validate_video_is_vertical, hsz, hnot]
  · intro hwh
    constructor
    · simp [validate_video_is_vertical, hwh]
    · simp [image_to_video_finalize, validate_video_is_vertical, hsz, hwh]

/-- Witness for C7 with a 1920x1080 landscape and a 1080x1920 portrait
probe on a 20000-byte file. -/
theorem c7_orientation_gate_witness :
    (validate_video_is_vertical (ProbeResult.exits 0 [(1920, 1080)]) = false ∧
      (image_to_video_finalize (some 20000)
        (ProbeResult.exits 0 [(1920, 1080)])).returned = false) ∧
    (validate_video_is_vertical (ProbeResult.exits 0 [(1080, 1920)]) = true ∧
      (image_to_video_finalize (some 20000)
        (ProbeResult.exits 0 [(1080, 1920)])).returned = true) :=
  ⟨(c7_orientation_gate 1920 1080 20000 (by omega)).1 (by omega),
   (c7_orientation_gate 1080 1920 20000 (by omega)).2 (by omega)⟩

/-- C9: the structural validation fails open: whenever ffprobe cannot
establish the dimensions — nonzero exit status, empty stream list,
timeout, or a raised exception — _validate_video_is_vertical returns
True, accepting the unprobeable video. -/
theorem c9_fail_open (rc : Nat) (streams : List (Nat × Nat)) :
    (rc ≠ 0 → validate_video_is_vertical (ProbeResult.exits rc streams) = true) ∧
    validate_video_is_vertical (ProbeResult.exits 0 []) = true ∧
    validate_video_is_vertical ProbeResult.timeout = true ∧
    validate_video_is_vertical ProbeResult.raised = true := by
  refine ⟨fun hrc => ?_, rfl, rfl, rfl⟩
  simp [validate_video_is_vertical, hrc]

/-- Witness for C9 at exit code 1 with a landscape stream present. -/
theorem c9_fail_open_witness :
    (validate_video_is_vertical (ProbeResult.exits 1 [(1920, 1080)]) = true) ∧
    validate_video_is_vertical (ProbeResult.exits 0 []) = true ∧
    validate_video_is_vertical ProbeResult.timeout = true ∧
    validate_video_is_vertical ProbeResult.raised = true :=
  let h := c9_fail_open 1 [(1920, 1080)]
  ⟨h.1 (by omega), h.2⟩

theorem tryProviders_const_file (env : Nat → Nat → Outcome) (round : Nat)
    (b : FileState) (hf : ∀ i, (env round i).file = b) :
    ∀ (is : List Nat) (file : FileState), is ≠ [] →
      (tryProviders env round is file).file = b := by
  intro is
  induction is with
  | nil => intro file hne; exact absurd rfl hne
  | cons i rest ih =>
    intro file _
    by_cases hacc : (env round i).accepted = true
    · simp [tryProviders, hacc, hf i]
    · simp only [Bool.not_eq_true] at hacc
      simp only [tryProviders, hacc, Bool.false_eq_true, if_false]
      cases rest with
      | nil => simp [tryProviders, hf i]
      | cons j rest2 => exact ih _ (by simp)

theorem hybridRounds_const_file (env : Nat → Nat → Outcome) (np maxR : Nat)
    (b : FileState) (hf : ∀ r i, (env r i).file = b)
    (hfail : ∀ r i, (env r i).accepted = false) (hnp : 1 ≤ np) :
    ∀ (n a : Nat) (file : FileState), 1 ≤ n →
      (hybridRounds env np maxR n a file).file = b := by
  intro n
  induction n with
  | zero => intro a file h; omega
  | succ n ih =>
    intro a file _
    have htp := tryProviders_all_fail env a (List.range np) file (fun i _ => hfail a i)
    simp only [hybridRounds, htp.1, Bool.false_eq_true, if_false]
    cases n with
    | zero =>
      simp only [hybridRounds]
      exact tryProviders_const_file env a b (hf a) (List.range np) file
        (by simp [List.range_eq_nil]; omega)
    | succ m => exact ih (a + 1) _ (by omega)

/-- C8 counterexample: generate_image_hybrid does not delete a rejected
undersized artifact. With every provider leaving a 500-byte file at
output_path and returning True, the session fails every round, yet the
500-byte file is still at output_path when the function returns
False. -/
theorem c8_counterexample :
    (generate_image_hybrid (fun _ _ => Outcome.returned true (some 500)) "" 2 none).success
      = false ∧
    (generate_image_hybrid (fun _ _ => Outcome.returned true (some 500)) "" 2 none).file
      = some 500 := by
  decide

/-- C8 amended: a downloaded video failing the orientation check is
deleted from disk and never returned; generate_image_hybrid, however,
deletes nothing: when every provider leaves an undersized artifact of
b bytes (b at most 1000), the failed session ends with that artifact
still at output_path. -/
theorem c8_reject_cleanup (sz b w h : Nat) (hsz : 10000 < sz) (hb : b ≤ 1000)
    (hwh : h ≤ w) :
    image_to_video_finalize (some sz) (ProbeResult.exits 0 [(w, h)]) = ⟨false, none⟩ ∧
    (generate_image_hybrid (fun _ _ => Outcome.returned true (some b)) "" 2 none).success
      = false ∧
    (generate_image_hybrid (fun _ _ => Outcome.returned true (some b)) "" 2 none).file
      = some b := by
  have hnot : ¬ (w < h) := by omega
  have hfail : (Outcome.returned true (some b)).accepted = false := by
    simp only [Outcome.accepted, validFile, Bool.true_and]
    exact decide_eq_false (by omega)
  refine ⟨?_, ?_, ?_⟩
  · simp [image_to_video_finalize, validate_video_is_vertical, hsz, hnot]
  · exact (hybridRounds_all_fail (fun _ _ => Outcome.returned true (some b))
      (buildProviders "").length 2 (fun _ _ => hfail) 2 0 none).1
  · exact hybridRounds_const_file (fun _ _ => Outcome.returned true (some b))
      (buildProviders "").length 2 (some b)
      (fun _ _ => rfl) (fun _ _ => hfail) (by decide) 2 0 none (by omega)

/-- Witness for the amended C8 at concrete sizes and dimensions. -/
theorem c8_reject_cleanup_witness :
    image_to_video_finalize (some 20000) (ProbeResult.exits 0 [(1920, 1080)])
      = ⟨false, none⟩ ∧
    (generate_image_hybrid (fun _ _ => Outcome.returned true (some 500)) "" 2 none).success
      = false ∧
    (generate_image_hybrid (fun _ _ => Outcome.returned true (some 500)) "" 2 none).file
      = some 500 :=
  c8_reject_cleanup 20000 500 1920 1080 (by omega) (by omega) (by omega)

/-- Environment of one mix_audio_with_sfx call: whether the TTS file
exists, the SFX path list, which SFX paths exist on disk, and for each
strategy index (0 = full chain with atempo + volume + loudnorm + amix,
1 = atempo + volume + amix, 2 = volume only + amix, 3 = raw amerge)
the file left at output_path by that ffmpeg invocation. -/
structure MixEnv where
  ttsExists : Bool
  sfxPaths : List String
  sfxExists : String → Bool
  tryResult : Nat → FileState

/-- SFX inputs actually passed to ffmpeg: the existing paths among the
first two listed — sfx_paths[:2] filtered by os.path.exists. -/
def validSfx (env : MixEnv) : List String :=
  (env.sfxPaths.take 2).filter env.sfxExists

/-- Result of one mix_audio_with_sfx call: the returned boolean, the
strategy indices whose ffmpeg invocation ran (in order), and the SFX
paths mixed into those invocations. -/
structure MixRun where
  success : Bool
  invoked : List Nat
  mixed : List String
deriving DecidableEq

/-- The fallback cascade over strategy indices: each strategy runs its
ffmpeg invocation; the first whose output file exists and exceeds 1000
bytes wins and stops the cascade. -/
def runCascade (env : MixEnv) : List Nat → Bool × List Nat
  | [] => (false, [])
  | s :: rest =>
    if validFile (env.tryResult s) then (true, [s])
    else
      let r := runCascade env rest
      (r.1, s :: r.2)

/-- mix_audio_with_sfx of src/animator_v2.py: returns False at once
when the SFX list is empty or the TTS file is missing, or when no SFX
among the first two listed exists on disk; otherwise runs the four
strategies in the fixed order 0, 1, 2, 3 and returns whether one
produced a valid output. -/
def mix_audio_with_sfx (env : MixEnv) : MixRun :=
  if env.sfxPaths.isEmpty || !env.ttsExists then ⟨false, [], []⟩
  else if (validSfx env).length = 0 then ⟨false, [], []⟩
  else
    let r := runCascade env [0, 1, 2, 3]
    ⟨r.1, r.2, validSfx env⟩

/-- C4: mix_audio_with_sfx tries its four strategies in the fixed
order full chain, atempo + volume, volume only, raw amerge; the first
strategy whose output exists and exceeds 1000 bytes wins and later
strategies are not attempted; a failing strategy falls through to the
next; if all four fail the function returns failure. -/
theorem c4_mix_cascade (env : MixEnv)
    (h1 : env.sfxPaths ≠ []) (h2 : env.ttsExists = true)
    (h3 : validSfx env ≠ []) :
    (∀ k, k < 4 → validFile (env.tryResult k) = true →
      (∀ j, j < k → validFile (env.tryResult j) = false) →
      (mix_audio_with_sfx env).success = true ∧
      (mix_audio_with_sfx env).invoked = List.range (k + 1)) ∧
    ((∀ k, k < 4 → validFile (env.tryResult k) = false) →
      (mix_audio_with_sfx env).success = false ∧
      (mix_audio_with_sfx env).invoked = [0, 1, 2, 3]) := by
  have hcond : (env.sfxPaths.isEmpty || !env.ttsExists) = false := by
    simp [h2, List.isEmpty_iff, h1]
  have hlen : ¬ ((validSfx env).length = 0) := by
    simp [List.length_eq_zero, h3]
  constructor
  · intro k hk hsk hprev
    interval_cases k
    · simp [mix_audio_with_sfx, hcond, hlen, runCascade, hsk,
        List.range_succ, List.range_zero]
    · simp [mix_audio_with_sfx, hcond, hlen, runCascade, hsk,
        hprev 0 (by omega), List.range_succ, List.range_zero]
    · simp [mix_audio_with_sfx, hcond, hlen, runCascade, hsk,
        hprev 0 (by omega), hprev 1 (by omega), List.range_succ, List.range_zero]
    · simp [mix_audio_with_sfx, hcond, hlen, runCascade, hsk,
        hprev 0 (by omega), hprev 1 (by omega), hprev 2 (by omega),
        List.range_succ, List.range_zero]
  · intro hall
    simp [mix_audio_with_sfx, hcond, hlen, runCascade,
      hall 0 (by omega), hall 1 (by omega), hall 2 (by omega), hall 3 (by omega)]

/-- Mixing environment where the TTS exists, one SFX path exists, the
full-chain strategy leaves no output and the second strategy leaves a
5000-byte output. -/
def envMix : MixEnv :=
  ⟨true, ["a"], fun _ => true, fun k => if k = 1 then some 5000 else none⟩

/-- Witness for C4: the cascade falls through the failed full chain to
strategy 1 and stops there. -/
theorem c4_mix_cascade_witness :
    (mix_audio_with_sfx envMix).success = true ∧
    (mix_audio_with_sfx envMix).invoked = List.range 2 :=
  (c4_mix_cascade envMix (by decide) rfl (by decide)).1 1 (by omega) (by decide)
    (by
      intro j hj
      have hj0 : j = 0 := by omega
      subst hj0
      decide)

theorem take_filter_mem {α : Type} (p : α → Bool) (l : List α) (n : Nat) :
    ∀ s ∈ (l.take n).filter p, s ∈ (l.filter p).take n := by
  intro s hs
  have hsplit : l.filter p = (l.take n).filter p ++ (l.drop n).filter p := by
    rw [← List.filter_append, List.take_append_drop]
  have hlen : ((l.take n).filter p).length ≤ n :=
    le_trans (List.length_filter_le p (l.take n)) (by simp)
  rw [hsplit, List.take_append_eq_append_take, List.take_of_length_le hlen]
  exact List.mem_append_left _ hs

/-- C10: mix_audio_with_sfx returns failure without invoking ffmpeg at
all when its preconditions fail — empty SFX list, missing TTS file, or
no existing path among the first two listed SFX; and in every
invocation at most two SFX are mixed, each from the first two existing
SFX paths. -/
theorem c10_mix_preconditions (env : MixEnv) :
    ((env.sfxPaths = [] ∨ env.ttsExists = false ∨ validSfx env = []) →
      mix_audio_with_sfx env = ⟨false, [], []⟩) ∧
    (mix_audio_with_sfx env).mixed.length ≤ 2 ∧
    (∀ s ∈ (mix_audio_with_sfx env).mixed,
      s ∈ (env.sfxPaths.filter env.sfxExists).take 2) := by
  have hm : (mix_audio_with_sfx env).mixed = [] ∨
      (mix_audio_with_sfx env).mixed = validSfx env := by
    unfold mix_audio_with_sfx
    split
    · exact Or.inl rfl
    · split
      · exact Or.inl rfl
      · exact Or.inr rfl
  refine ⟨?_, ?_, ?_⟩
  · rintro (h | h | h)
    · simp [mix_audio_with_sfx, h]
    · simp [mix_audio_with_sfx, h]
    · by_cases hcond : (env.sfxPaths.isEmpty || !env.ttsExists) = true
      · simp [mix_audio_with_sfx, hcond]
      · simp only [Bool.not_eq_true] at hcond
        simp [mix_audio_with_sfx, hcond, h]
  · rcases hm with hm | hm
    · simp [hm]
    · rw [hm]
      exact le_trans (List.length_filter_le _ _) (by simp)
  · rcases hm with hm | hm
    · simp [hm]
    · rw [hm]
      exact take_filter_mem env.sfxExists env.sfxPaths 2

/-- Mixing environment with an empty SFX list. -/
def envMixEmpty : MixEnv := ⟨true, [], fun _ => false, fun _ => none⟩

/-- Witness for C10: with an empty SFX list the function returns False
with no ffmpeg invocation. -/
theorem c10_mix_preconditions_witness :
    mix_audio_with_sfx envMixEmpty = ⟨false, [], []⟩ :=
  (c10_mix_preconditions envMixEmpty).1 (Or.inl rfl)

end GlobalViralApp
